import Mathlib

/-!
Verification of the archive-backend layer of the bob build tool
(`pym/bob/archive.py`): identifier sharding, capability policy, the
local/HTTP/external-command transport backends, script emission, and the
composite (`MultiArchive`) backend.  Python methods are embedded as pure
Lean functions; mutation becomes explicit state passing, exceptions become
`Except`, and external effects (filesystem, HTTP requests, subprocesses)
are passed in as explicit outcome parameters.
-/

/-- Modelled from the spec: `asHexStr` (imported from `bob.utils`, which is not
part of the sources) renders a fixed-length byte sequence as lowercase
hexadecimal, two characters per byte (`"%02x" % x` for each byte `x`).
`hexDigitChar n` is the lowercase hex digit for `n < 16`. -/
def hexDigitChar (n : Nat) : Char :=
  if n < 10 then Char.ofNat (48 + n) else Char.ofNat (87 + n)

/-- Modelled from the spec: the character sequence of the lowercase hex
rendering, two digits per byte (high nibble first). Bytes are `Nat`s taken
mod 256. -/
def hexChars : List Nat → List Char
  | [] => []
  | x :: xs => hexDigitChar (x % 256 / 16) :: hexDigitChar (x % 16) :: hexChars xs

/-- Modelled from the spec: `asHexStr(buildId)` — lowercase hex string of a
byte sequence. -/
def asHexStr (b : List Nat) : String :=
  String.mk (hexChars b)

/-- Python string slicing `s[0:n]` (clamped at the end of the string). -/
def strTake (s : String) (n : Nat) : String :=
  String.mk (s.data.take n)

/-- Python string slicing `s[n:]` (clamped at the end of the string). -/
def strDrop (s : String) (n : Nat) : String :=
  String.mk (s.data.drop n)

/-- The sixteen lowercase hexadecimal digits. -/
def lowerHexDigits : List Char :=
  "0123456789abcdef".data

/-- Modelled from the spec: `BuildError` (from `bob.errors`, not part of the
sources) is the fatal error type raised on unrecoverable transfer or
configuration failures; only its message matters here. -/
structure BuildError where
  msg : String
deriving DecidableEq

/-- The declarative archive configuration dictionary (§ configuration
schema): `spec.get(key)` is `none` when the key is absent.  `uploadCmd` and
`downloadCmd` are the `"upload"`/`"download"` command-template entries of a
`shell` spec. -/
structure ArchiveSpec where
  backend : Option String
  flags : Option (List String)
  path : Option String
  url : Option String
  uploadCmd : Option String
  downloadCmd : Option String

/-- State of `BaseArchive`: the static allowed-operations booleans
(`__useDownload`/`__useUpload`, from the spec's `flags`) and the two mutable
wanted flags (`__wantDownload`/`__wantUpload`).  The fields backing the
Python attributes `__wantDownload`/`__wantUpload` are named
`wantDownloadFlag`/`wantUploadFlag` so that the mutator methods can keep the
source's names `wantDownload`/`wantUpload`. -/
structure BaseArchiveState where
  useDownload : Bool
  useUpload : Bool
  wantDownloadFlag : Bool
  wantUploadFlag : Bool
deriving DecidableEq

/-- `BaseArchive.__init__`: `use = spec.get("flags", ["upload", "download"])`;
the wanted flags start `False`. -/
def BaseArchive.init (spec : ArchiveSpec) : BaseArchiveState :=
  let use := spec.flags.getD ["upload", "download"]
  { useDownload := use.contains "download"
    useUpload := use.contains "upload"
    wantDownloadFlag := false
    wantUploadFlag := false }

/-- `BaseArchive.wantDownload(enable)`. -/
def BaseArchiveState.wantDownload (s : BaseArchiveState) (enable : Bool) : BaseArchiveState :=
  { s with wantDownloadFlag := enable }

/-- `BaseArchive.wantUpload(enable)`. -/
def BaseArchiveState.wantUpload (s : BaseArchiveState) (enable : Bool) : BaseArchiveState :=
  { s with wantUploadFlag := enable }

/-- `BaseArchive.canDownload`: `self.__wantDownload and self.__useDownload`. -/
def BaseArchiveState.canDownload (s : BaseArchiveState) : Bool :=
  s.wantDownloadFlag && s.useDownload

/-- `BaseArchive.canUpload`: `self.__wantUpload and self.__useUpload`. -/
def BaseArchiveState.canUpload (s : BaseArchiveState) : Bool :=
  s.wantUploadFlag && s.useUpload

/-- The apostrophe character, used by the shell-quoting model. -/
def squoteChar : Char := Char.ofNat 39

/-- Characters that `pipes.quote` leaves unquoted: ASCII alphanumerics,
underscore and the punctuation @ % + = : , . slash hyphen (Python's
`_find_unsafe` regex). -/
def shSafeChar (c : Char) : Bool :=
  c.isAlphanum || c = '_' || c = '@' || c = '%' || c = '+' || c = '=' ||
    c = ':' || c = ',' || c = '.' || c = '/' || c = '-'

/-- Quoting of one character inside a single-quoted shell string: an
apostrophe becomes the five-character sequence apostrophe, double quote,
apostrophe, double quote, apostrophe. -/
def shQuoteEscape (c : Char) : List Char :=
  if c = squoteChar then [squoteChar, '"', squoteChar, '"', squoteChar] else [c]

/-- `pipes.quote(s)`: the empty string becomes a pair of apostrophes, a
string of safe characters is returned unchanged, anything else is wrapped in
apostrophes with inner apostrophes escaped. -/
def shQuote (s : String) : String :=
  if s.data = [] then String.mk [squoteChar, squoteChar]
  else if s.data.all shSafeChar then s
  else String.mk (squoteChar :: (s.data.flatMap shQuoteEscape ++ [squoteChar]))

/-- `LocalArchive`: inherited `BaseArchive` state plus the absolute base
directory (`os.path.abspath(spec["path"])`, kept abstract as the resulting
string). -/
structure LocalArchive where
  base : BaseArchiveState
  basePath : String

/-- `LocalArchive.canUpload` (inherited from `BaseArchive`). -/
def LocalArchive.canUpload (a : LocalArchive) : Bool :=
  a.base.canUpload

/-- `LocalArchive.canDownload` (inherited from `BaseArchive`). -/
def LocalArchive.canDownload (a : LocalArchive) : Bool :=
  a.base.canDownload

/-- The sharded target file of a build identifier under the base directory:
`os.path.join(basePath, id[0:2], id[2:4])` then `os.path.join(path, id[4:])
+ ".tgz"`.  The hex segments are relative, so `os.path.join` is embedded as
`"/"`-separated concatenation. -/
def LocalArchive.packageResultFile (a : LocalArchive) (buildId : List Nat) : String :=
  let packageResultId := asHexStr buildId
  a.basePath ++ "/" ++ strTake packageResultId 2 ++ "/" ++
    strTake (strDrop packageResultId 2) 2 ++ "/" ++
    (strDrop packageResultId 4 ++ ".tgz")

/-- The content written for an upload: `tar.add(path, arcname=".")` of the
artifact directory, kept abstract as a wrapper around the directory's
snapshot. -/
structure Tgz where
  content : String
deriving DecidableEq

/-- The console outcome of `LocalArchive.uploadPackage`: no-op when the
capability is off, the "skipped (... exists in archive)" message, or an
actual upload. -/
inductive UploadOutcome where
  | noop
  | skipped
  | uploaded
deriving DecidableEq

/-- `LocalArchive.uploadPackage(buildId, path)`.  The filesystem is passed
explicitly as a map `fs` from file names to stored tgz contents, and `dirs`
gives the current snapshot of each directory (what `tar.add(path, ".")`
serializes).  Returns the updated filesystem and the console outcome: a
no-op without the capability, skip (leaving `fs` unchanged) when the target
file exists, otherwise the write of the serialized directory. -/
def LocalArchive.uploadPackage (a : LocalArchive) (fs : String → Option Tgz)
    (dirs : String → String) (buildId : List Nat) (path : String) :
    (String → Option Tgz) × UploadOutcome :=
  if ¬ a.canUpload then (fs, .noop)
  else
    let packageResultFile := a.packageResultFile buildId
    if (fs packageResultFile).isSome then (fs, .skipped)
    else (fun p => if p = packageResultFile then some ⟨dirs path⟩ else fs p, .uploaded)

/-- `LocalArchive.upload(step, buildIdFile, tgzFile)` — script emission for
the upload direction.  The unused `step` argument is omitted.  NOTE: the
guard is translated exactly as written in the source: `if self.canUpload():
return ""`, i.e. without the `not` used by every sibling emitter. -/
def LocalArchive.upload (a : LocalArchive) (buildIdFile tgzFile : String) : String :=
  if a.canUpload then ""
  else
    "\n" ++ "# upload artifact\ncd $WORKSPACE\nBOB_UPLOAD_FILE=\"" ++ a.basePath ++
      "/$(hexdump -e \x272/1 \"%02x/\" 14/1 \"%02x\"\x27 " ++ shQuote buildIdFile ++
      ").tgz\"\nif [[ ! -e $\x7bBOB_UPLOAD_FILE\x7d ]] ; then\n    mkdir -p \"$\x7bBOB_UPLOAD_FILE%/*\x7d\"\n    cp " ++
      shQuote tgzFile ++ " \"$BOB_UPLOAD_FILE\"\nfi"

/-- `LocalArchive.download(step, buildIdFile, tgzFile)` — script emission
for the download direction (empty unless `canDownload()`). -/
def LocalArchive.download (a : LocalArchive) (buildIdFile tgzFile : String) : String :=
  if ¬ a.canDownload then ""
  else
    "\n" ++ "if [[ ! -e " ++ shQuote tgzFile ++ " ]] ; then\n    BOB_DOWNLOAD_FILE=\"" ++
      a.basePath ++ "/$(hexdump -e \x272/1 \"%02x/\" 14/1 \"%02x\"\x27 " ++
      shQuote buildIdFile ++ ").tgz\"\n    cp \"$BOB_DOWNLOAD_FILE\" " ++
      shQuote tgzFile ++ " || echo Download failed: $?\nfi\n"

/-- `SimpleHttpArchive`: inherited `BaseArchive` state plus the base URL
(`spec["url"]`). -/
structure SimpleHttpArchive where
  base : BaseArchiveState
  url : String

/-- `SimpleHttpArchive.canUpload` (inherited from `BaseArchive`). -/
def SimpleHttpArchive.canUpload (a : SimpleHttpArchive) : Bool :=
  a.base.canUpload

/-- `SimpleHttpArchive.canDownload` (inherited from `BaseArchive`). -/
def SimpleHttpArchive.canDownload (a : SimpleHttpArchive) : Bool :=
  a.base.canDownload

/-- `SimpleHttpArchive._makeUrl(buildId)`:
`"/".join([url, id[0:2], id[2:4], id[4:] + ".tgz"])`; the four-element join
is written as explicit `"/"`-separated concatenation. -/
def SimpleHttpArchive.makeUrl (a : SimpleHttpArchive) (buildId : List Nat) : String :=
  let packageResultId := asHexStr buildId
  a.url ++ "/" ++ strTake packageResultId 2 ++ "/" ++
    strTake (strDrop packageResultId 2) 2 ++ "/" ++
    (strDrop packageResultId 4 ++ ".tgz")

/-- The exceptions that can escape the `try` block of
`SimpleHttpArchive.downloadPackage`: an HTTP error status from the request,
another transport-level `URLError`, or a local `OSError` (e.g. while
extracting).  In Python's class hierarchy `HTTPError` is a subclass of
`URLError`, which is itself a subclass of `OSError`. -/
inductive PyExc where
  | httpError (code : Nat) (reason : String)
  | urlError (reason : String)
  | osError (msg : String)
deriving DecidableEq

/-- Whether an exception is caught by an `except urllib.error.URLError`
clause: `HTTPError` is a `URLError` subclass, so both match; a plain
`OSError` does not. -/
def PyExc.isURLError : PyExc → Bool
  | .httpError _ _ => true
  | .urlError _ => true
  | .osError _ => false

/-- The `reason`/message text used when the exception is reported. -/
def PyExc.text : PyExc → String
  | .httpError _ reason => reason
  | .urlError reason => reason
  | .osError msg => msg

/-- The outcome of `urllib.request.urlretrieve` against a server answering
with the given HTTP status: a status below 400 succeeds, an error status
raises `urllib.error.HTTPError(status)`. -/
def urlretrieveOutcome (status : Nat) (reason : String) : Option PyExc :=
  if status < 400 then none else some (.httpError status reason)

/-- `SimpleHttpArchive.downloadPackage(buildId, path)`.  `tryOutcome` is the
exception (if any) escaping the `try` block (the fetch plus the local
extraction).  The handlers are checked in source order: `except URLError`
prints the reason and leaves `ret = False`; otherwise `except OSError`
raises `BuildError("Error: " + str(e))`. -/
def SimpleHttpArchive.downloadPackage (a : SimpleHttpArchive)
    (tryOutcome : Option PyExc) : Except BuildError Bool :=
  if ¬ a.canDownload then .ok false
  else
    match tryOutcome with
    | none => .ok true
    | some e =>
        if e.isURLError then .ok false
        else .error ⟨"Error: " ++ e.text⟩

/-- `SimpleHttpArchive.upload(step, buildIdFile, tgzFile)` — script emission
for the upload direction (empty unless `canUpload()`); the unused `step`
argument is omitted. -/
def SimpleHttpArchive.upload (a : SimpleHttpArchive) (buildIdFile tgzFile : String) : String :=
  if ¬ a.canUpload then ""
  else
    "\n" ++ "# upload artifact\ncd $WORKSPACE\nBOB_UPLOAD_URL=\"" ++ a.url ++
      "/$(hexdump -e \x272/1 \"%02x/\" 14/1 \"%02x\"\x27 " ++ shQuote buildIdFile ++
      ").tgz\"\nif ! curl --output /dev/null --silent --head --fail \"$BOB_UPLOAD_URL\" ; then\n    curl -sSg -T " ++
      shQuote tgzFile ++ " \"$BOB_UPLOAD_URL\" || echo Upload failed: $?\nfi"

/-- `SimpleHttpArchive.download(step, buildIdFile, tgzFile)` — script
emission for the download direction (empty unless `canDownload()`). -/
def SimpleHttpArchive.download (a : SimpleHttpArchive) (buildIdFile tgzFile : String) : String :=
  if ¬ a.canDownload then ""
  else
    "\n" ++ "if [[ ! -e " ++ shQuote tgzFile ++ " ]] ; then\n    BOB_DOWNLOAD_URL=\"" ++
      a.url ++ "/$(hexdump -e \x272/1 \"%02x/\" 14/1 \"%02x\"\x27 " ++
      shQuote buildIdFile ++ ").tgz\"\n    curl -sSg --fail -o " ++ shQuote tgzFile ++
      " \"$BOB_DOWNLOAD_URL\" || echo Download failed: $?\nfi\n"

/-- `CustomArchive`: inherited `BaseArchive` state plus
`spec.get("download")`, `spec.get("upload")` and the collaborator-supplied
environment whitelist. -/
structure CustomArchive where
  base : BaseArchiveState
  downloadCmd : Option String
  uploadCmd : Option String
  whiteList : List String

/-- `CustomArchive.__init__(spec, whiteList)`: stores the two optional
command strings and the whitelist; construction never fails. -/
def CustomArchive.init (spec : ArchiveSpec) (whiteList : List String) : CustomArchive :=
  { base := BaseArchive.init spec
    downloadCmd := spec.downloadCmd
    uploadCmd := spec.uploadCmd
    whiteList := whiteList }

/-- `CustomArchive.wantDownload(enable)` (inherited mutator). -/
def CustomArchive.wantDownload (a : CustomArchive) (enable : Bool) : CustomArchive :=
  { a with base := a.base.wantDownload enable }

/-- `CustomArchive.wantUpload(enable)` (inherited mutator). -/
def CustomArchive.wantUpload (a : CustomArchive) (enable : Bool) : CustomArchive :=
  { a with base := a.base.wantUpload enable }

/-- `CustomArchive.canDownload`:
`super().canDownload() and (self.__downloadCmd is not None)`. -/
def CustomArchive.canDownload (a : CustomArchive) : Bool :=
  a.base.canDownload && a.downloadCmd.isSome

/-- `CustomArchive.canUpload`:
`super().canUpload() and (self.__uploadCmd is not None)`. -/
def CustomArchive.canUpload (a : CustomArchive) : Bool :=
  a.base.canUpload && a.uploadCmd.isSome

/-- `CustomArchive._makeUrl(buildId)`:
`"/".join([id[0:2], id[2:4], id[4:] + ".tgz"])` — the sharded relative key
with no base prefix (`self` is unused by the method body, so the embedding
takes only the build identifier). -/
def CustomArchive.makeUrl (buildId : List Nat) : String :=
  let packageResultId := asHexStr buildId
  strTake packageResultId 2 ++ "/" ++ strTake (strDrop packageResultId 2) 2 ++
    "/" ++ (strDrop packageResultId 4 ++ ".tgz")

/-- The environment dictionary built by `CustomArchive.uploadPackage` and
`CustomArchive.downloadPackage` for `subprocess.call`:
`{k: v for (k, v) in os.environ.items() if k in whiteList}` followed by the
assignments of `BOB_LOCAL_ARTIFACT` (the private temp-file path) and
`BOB_REMOTE_ARTIFACT` (the sharded relative key).  The ambient process
environment `environ` is a map from names to optional values; the result is
the same kind of map. -/
def subprocEnv (whiteList : List String) (environ : String → Option String)
    (tmpName : String) (buildId : List Nat) : String → Option String :=
  fun k =>
    if k = "BOB_REMOTE_ARTIFACT" then some (CustomArchive.makeUrl buildId)
    else if k = "BOB_LOCAL_ARTIFACT" then some tmpName
    else if whiteList.contains k then environ k
    else none

/-- `CustomArchive.uploadPackage(buildId, path)`.  `environ` is the ambient
process environment, `tmpName` the private temp file from `mkstemp`, and
`exitCode` the status returned by `subprocess.call` on the upload command.
The first component records the environment actually passed to
`subprocess.call` (`none` when no subprocess was spawned); the second is the
operation's result: without the capability it returns immediately, a zero
exit succeeds, and a non-zero exit raises
`BuildError("Upload failed: command return with status {ret}")`. -/
def CustomArchive.uploadPackageRun (a : CustomArchive)
    (environ : String → Option String) (tmpName : String) (buildId : List Nat)
    (exitCode : Int) : Option (String → Option String) × Except BuildError Unit :=
  if ¬ a.canUpload then (none, .ok ())
  else
    let env := subprocEnv a.whiteList environ tmpName buildId
    if exitCode = 0 then (some env, .ok ())
    else (some env,
      .error ⟨"Upload failed: command return with status " ++ toString exitCode⟩)

/-- `CustomArchive.downloadPackage(buildId, path)`.  Parameters as for
`CustomArchive.uploadPackageRun`; `extractErr` is the `OSError` (if any)
raised while clearing `path` and extracting the downloaded temp file after a
zero exit.  A non-zero exit of the download command prints
"failed (exit ...)" and returns `False` without raising; a zero exit with a
clean extraction returns `True`; an `OSError` raises
`BuildError("Download failed: " + str(e))`. -/
def CustomArchive.downloadPackageRun (a : CustomArchive)
    (environ : String → Option String) (tmpName : String) (buildId : List Nat)
    (exitCode : Int) (extractErr : Option String) :
    Option (String → Option String) × Except BuildError Bool :=
  if ¬ a.canDownload then (none, .ok false)
  else
    let env := subprocEnv a.whiteList environ tmpName buildId
    if exitCode = 0 then
      match extractErr with
      | some m => (some env, .error ⟨"Download failed: " ++ m⟩)
      | none => (some env, .ok true)
    else (some env, .ok false)

/-- A member of `MultiArchive` as seen by its `downloadPackage` loop, which
interacts with each member only through `i.canDownload()` and
`i.downloadPackage(buildId, path)`: for one fixed call, the member is
characterized by its capability and the result its download would return. -/
structure ArchiveView where
  canDownload : Bool
  downloadResult : Bool
deriving DecidableEq

/-- `MultiArchive.downloadPackage(buildId, path)` together with its
invocation trace: iterates members in list order, skips (without invoking)
any member whose `canDownload()` is false, and returns `True` at the first
member whose download succeeds, invoking no later member; returns `False`
when no member succeeds.  The second component lists the members on which
`downloadPackage` was actually invoked, in order. -/
def MultiArchive.downloadPackageRun : List ArchiveView → Bool × List ArchiveView
  | [] => (false, [])
  | i :: rest =>
    if ¬ i.canDownload then MultiArchive.downloadPackageRun rest
    else if i.downloadResult then (true, [i])
    else
      let r := MultiArchive.downloadPackageRun rest
      (r.1, i :: r.2)

/-- The prefix of a member list up to and including its first successful
member (used to describe the invocation trace of the composite download). -/
def takeThroughSuccess : List ArchiveView → List ArchiveView
  | [] => []
  | i :: rest => if i.downloadResult then [i] else i :: takeThroughSuccess rest

/-- The closed set of single backends a `MultiArchive` can hold, as built by
`getSingleArchiver`: `DummyArchive` (no state), `LocalArchive`,
`SimpleHttpArchive` and `CustomArchive`, each with its own configuration. -/
inductive Archive where
  | dummy : Archive
  | file (s : BaseArchiveState) (basePath : String) : Archive
  | http (s : BaseArchiveState) (url : String) : Archive
  | shell (s : BaseArchiveState) (downloadCmd uploadCmd : Option String)
      (whiteList : List String) : Archive

/-- Dispatch of `i.wantDownload(enable)`: `DummyArchive.wantDownload` is
`pass`; the three `BaseArchive` subclasses set their inherited wanted flag. -/
def Archive.wantDownload (enable : Bool) : Archive → Archive
  | .dummy => .dummy
  | .file s p => .file (s.wantDownload enable) p
  | .http s u => .http (s.wantDownload enable) u
  | .shell s d u w => .shell (s.wantDownload enable) d u w

/-- Dispatch of `i.wantUpload(enable)`. -/
def Archive.wantUpload (enable : Bool) : Archive → Archive
  | .dummy => .dummy
  | .file s p => .file (s.wantUpload enable) p
  | .http s u => .http (s.wantUpload enable) u
  | .shell s d u w => .shell (s.wantUpload enable) d u w

/-- Dispatch of `i.canDownload()`: `DummyArchive` always answers `False`;
`LocalArchive` and `SimpleHttpArchive` use the inherited check;
`CustomArchive` additionally requires a configured download command. -/
def Archive.canDownload : Archive → Bool
  | .dummy => false
  | .file s _ => s.canDownload
  | .http s _ => s.canDownload
  | .shell s d _ _ => s.canDownload && d.isSome

/-- Dispatch of `i.canUpload()`. -/
def Archive.canUpload : Archive → Bool
  | .dummy => false
  | .file s _ => s.canUpload
  | .http s _ => s.canUpload
  | .shell s _ u _ => s.canUpload && u.isSome

/-- The wanted-download flag a member carries, if it has one:
`DummyArchive` stores no flags; the `BaseArchive` subclasses carry
`__wantDownload`. -/
def Archive.wantedDownloadFlag : Archive → Option Bool
  | .dummy => none
  | .file s _ => some s.wantDownloadFlag
  | .http s _ => some s.wantDownloadFlag
  | .shell s _ _ _ => some s.wantDownloadFlag

/-- The wanted-upload flag a member carries, if it has one. -/
def Archive.wantedUploadFlag : Archive → Option Bool
  | .dummy => none
  | .file s _ => some s.wantUploadFlag
  | .http s _ => some s.wantUploadFlag
  | .shell s _ _ _ => some s.wantUploadFlag

/-- The static, wanted-independent part of a member's download capability:
its allowed-operations bit ANDed with any extra configuration condition
(`DummyArchive` can never act; `CustomArchive` also needs a download
command). -/
def Archive.downloadConfigCond : Archive → Bool
  | .dummy => false
  | .file s _ => s.useDownload
  | .http s _ => s.useDownload
  | .shell s d _ _ => s.useDownload && d.isSome

/-- The static, wanted-independent part of a member's upload capability. -/
def Archive.uploadConfigCond : Archive → Bool
  | .dummy => false
  | .file s _ => s.useUpload
  | .http s _ => s.useUpload
  | .shell s _ u _ => s.useUpload && u.isSome

/-- `MultiArchive.wantDownload(enable)`: forwards the flag to every member
in list order (`for i in self.__archives: i.wantDownload(enable)`). -/
def MultiArchive.wantDownload (enable : Bool) (archives : List Archive) : List Archive :=
  archives.map (Archive.wantDownload enable)

/-- `MultiArchive.wantUpload(enable)`. -/
def MultiArchive.wantUpload (enable : Bool) (archives : List Archive) : List Archive :=
  archives.map (Archive.wantUpload enable)

/-- `MultiArchive.canDownload`:
`any(i.canDownload() for i in self.__archives)`. -/
def MultiArchive.canDownload (archives : List Archive) : Bool :=
  archives.any Archive.canDownload

/-- `MultiArchive.canUpload`: `any(i.canUpload() for i in self.__archives)`. -/
def MultiArchive.canUpload (archives : List Archive) : Bool :=
  archives.any Archive.canUpload

theorem hexChars_length (b : List Nat) : (hexChars b).length = 2 * b.length := by
  induction b with
  | nil => rfl
  | cons x xs ih => simp [hexChars, ih]; omega

theorem hexDigitChar_mem (n : Nat) (h : n < 16) : hexDigitChar n ∈ lowerHexDigits := by
  revert n h
  decide

theorem hexChars_mem (b : List Nat) : ∀ c ∈ hexChars b, c ∈ lowerHexDigits := by
  induction b with
  | nil => intro c hc; simp [hexChars] at hc
  | cons x xs ih =>
    intro c hc
    simp only [hexChars, List.mem_cons] at hc
    rcases hc with h | h | h
    · subst h; exact hexDigitChar_mem _ (by omega)
    · subst h; exact hexDigitChar_mem _ (by omega)
    · exact ih c h

theorem strTake_length (s : String) (n : Nat) : (strTake s n).length = min n s.length :=
  List.length_take n s.data

theorem strDrop_length (s : String) (n : Nat) : (strDrop s n).length = s.length - n :=
  List.length_drop n s.data

theorem asHexStr_length (b : List Nat) : (asHexStr b).length = 2 * b.length :=
  hexChars_length b

/-- Example build identifier (first bytes 0xAA 0xBB 0xCC 0xDD). -/
def bEx : List Nat := [0xAA, 0xBB, 0xCC, 0xDD]

/-- A fully enabled `BaseArchive` state: both operations allowed, both
wanted. -/
def exBaseOn : BaseArchiveState :=
  { useDownload := true, useUpload := true, wantDownloadFlag := true, wantUploadFlag := true }

/-- A `BaseArchive` state with both operations allowed but nothing wanted. -/
def exBaseOff : BaseArchiveState :=
  { useDownload := true, useUpload := true, wantDownloadFlag := false, wantUploadFlag := false }

/-- An enabled local-filesystem backend. -/
def exLocal : LocalArchive := ⟨exBaseOn, "/mnt/archive"⟩

/-- A local-filesystem backend with neither direction wanted. -/
def exLocalOff : LocalArchive := ⟨exBaseOff, "/mnt/archive"⟩

/-- An enabled HTTP backend. -/
def exHttp : SimpleHttpArchive := ⟨exBaseOn, "http://server/archive"⟩

/-- An enabled external-command backend with whitelist `["PATH"]`. -/
def exCustom : CustomArchive := ⟨exBaseOn, some "fetch.sh", some "store.sh", ["PATH"]⟩

/-- An ambient process environment carrying a whitelisted `PATH` and a
non-whitelisted `SECRET`. -/
def exEnviron : String → Option String :=
  fun k => if k = "SECRET" then some "1" else if k = "PATH" then some "/usr/bin" else none

/-- C3: the sharded storage key of a build identifier is deterministic (a
pure function of the identifier) and consists of the segments
`hex(b)[0:2]`, `hex(b)[2:4]`, `hex(b)[4:] + ".tgz"` in lowercase hex: the
first two segments have length 2, the three hex-segment lengths sum to
`2 * len(b)`, and the HTTP backend's URL is exactly its base URL followed
by `/` and the external-command backend's relative key for the same
identifier. -/
theorem C3_shard_key (b : List Nat) (a : SimpleHttpArchive) (h2 : 2 ≤ b.length) :
    (strTake (asHexStr b) 2).length = 2 ∧
    (strTake (strDrop (asHexStr b) 2) 2).length = 2 ∧
    (strTake (asHexStr b) 2).length + (strTake (strDrop (asHexStr b) 2) 2).length +
      (strDrop (asHexStr b) 4).length = 2 * b.length ∧
    (∀ c ∈ (asHexStr b).data, c ∈ lowerHexDigits) ∧
    a.makeUrl b = a.url ++ "/" ++ CustomArchive.makeUrl b := by
  have hlen := asHexStr_length b
  refine ⟨?_, ?_, ?_, hexChars_mem b, ?_⟩
  · rw [strTake_length, hlen]; omega
  · rw [strTake_length, strDrop_length, hlen]; omega
  · rw [strTake_length, strTake_length, strDrop_length, strDrop_length, hlen]; omega
  · simp [SimpleHttpArchive.makeUrl, CustomArchive.makeUrl, String.append_assoc]

/-- Witness for C3 at the identifier 0xAABBCCDD and a concrete HTTP
backend. -/
theorem C3_shard_key_witness :
    2 ≤ bEx.length ∧
    ((strTake (asHexStr bEx) 2).length = 2 ∧
     (strTake (strDrop (asHexStr bEx) 2) 2).length = 2 ∧
     (strTake (asHexStr bEx) 2).length + (strTake (strDrop (asHexStr bEx) 2) 2).length +
       (strDrop (asHexStr bEx) 4).length = 2 * bEx.length ∧
     (∀ c ∈ (asHexStr bEx).data, c ∈ lowerHexDigits) ∧
     exHttp.makeUrl bEx = exHttp.url ++ "/" ++ CustomArchive.makeUrl bEx) :=
  ⟨by decide, C3_shard_key bEx exHttp (by decide)⟩

/-- C8: for every backend built from an `ArchiveSpec`, the capability is
the conjunction of the allowed bit and the wanted flag; the allowed set
defaults to both operations when `flags` is absent; both wanted flags are
initialized false at construction, so both capabilities are false until the
corresponding mutator is called with `True`. -/
theorem C8_capability_policy (spec : ArchiveSpec) (s : BaseArchiveState) (e : Bool) :
    (BaseArchive.init spec).canUpload = false ∧
    (BaseArchive.init spec).canDownload = false ∧
    (BaseArchive.init { spec with flags := none }).useUpload = true ∧
    (BaseArchive.init { spec with flags := none }).useDownload = true ∧
    s.canUpload = (s.useUpload && s.wantUploadFlag) ∧
    s.canDownload = (s.useDownload && s.wantDownloadFlag) ∧
    (s.wantUpload e).canUpload = (s.useUpload && e) ∧
    (s.wantDownload e).canDownload = (s.useDownload && e) := by
  refine ⟨rfl, rfl, by simp [BaseArchive.init], by simp [BaseArchive.init], ?_, ?_, ?_, ?_⟩ <;>
    simp [BaseArchiveState.canUpload, BaseArchiveState.canDownload,
      BaseArchiveState.wantUpload, BaseArchiveState.wantDownload, Bool.and_comm]

/-- C1 (divergence witness): `LocalArchive.upload` inverts its capability
guard — the source reads `if self.canUpload(): return ""` where every
sibling emitter reads `if not ...`.  At a backend whose `canUpload()` is
true the emitted upload fragment is the empty string, and at a backend
whose `canUpload()` is false it is a non-empty fragment; the HTTP backend's
emitter behaves as specified (non-empty exactly when enabled). -/
theorem C1_local_upload_guard_inverted :
    exLocal.canUpload = true ∧
    exLocal.upload ".bob-buildid" "result.tgz" = "" ∧
    exLocalOff.canUpload = false ∧
    exLocalOff.upload ".bob-buildid" "result.tgz" ≠ "" ∧
    exHttp.canUpload = true ∧
    exHttp.upload ".bob-buildid" "result.tgz" ≠ "" := by
  refine ⟨rfl, rfl, rfl, ?_, rfl, ?_⟩ <;> decide

/-- C2 (counterexample): with the download capability enabled, a server
answering HTTP 500 makes `SimpleHttpArchive.downloadPackage` return `False`
without raising — `urlretrieve` raises `HTTPError(500)`, which the
`except URLError` handler catches just like a 404 — contradicting the
claim that a 500 raises a fatal `BuildError`. -/
theorem C2_http_500_counterexample :
    exHttp.canDownload = true ∧
    exHttp.downloadPackage (urlretrieveOutcome 404 "Not Found") = .ok false ∧
    exHttp.downloadPackage (urlretrieveOutcome 500 "Internal Server Error") = .ok false :=
  ⟨rfl, rfl, rfl⟩

/-- C2 (amended): with the download capability enabled, `downloadPackage`
returns `False` without raising for every HTTP error status (404 and 500
alike), raises a fatal `BuildError` only for a local `OSError` that is not
a `URLError` (e.g. while extracting the downloaded stream), and returns
`True` when the fetch and the extraction succeed. -/
theorem C2_http_download_errors (a : SimpleHttpArchive) (status : Nat)
    (reason msg : String) (hcap : a.canDownload = true) (hstatus : 400 ≤ status) :
    a.downloadPackage (urlretrieveOutcome status reason) = .ok false ∧
    a.downloadPackage (some (.osError msg)) = .error ⟨"Error: " ++ msg⟩ ∧
    a.downloadPackage none = .ok true := by
  have h4 : ¬ status < 400 := by omega
  refine ⟨?_, ?_, ?_⟩ <;>
    simp [SimpleHttpArchive.downloadPackage, urlretrieveOutcome, h4, hcap,
      PyExc.isURLError, PyExc.text]

/-- Witness for the amended C2 at status 500 with a concrete enabled HTTP
backend. -/
theorem C2_http_download_errors_witness :
    exHttp.canDownload = true ∧ 400 ≤ 500 ∧
    (exHttp.downloadPackage (urlretrieveOutcome 500 "Internal Server Error") = .ok false ∧
     exHttp.downloadPackage (some (.osError "disk full")) = .error ⟨"Error: " ++ "disk full"⟩ ∧
     exHttp.downloadPackage none = .ok true) :=
  ⟨rfl, by decide, C2_http_download_errors exHttp 500 "Internal Server Error" "disk full" rfl (by decide)⟩

/-- C4: for both transfer directions of the external-command backend, the
environment handed to `subprocess.call` is exactly `subprocEnv`: the two
synthesized variables `BOB_LOCAL_ARTIFACT` (the local temp-file path) and
`BOB_REMOTE_ARTIFACT` (the sharded relative key), plus — for every other
name — the ambient variable exactly when its name is whitelisted; a
non-whitelisted ambient variable such as `SECRET` never reaches the
subprocess. -/
theorem C4_custom_env_whitelist (a : CustomArchive) (environ : String → Option String)
    (tmpName : String) (b : List Nat) (ret : Int) (extractErr : Option String)
    (k : String) (hU : a.canUpload = true) (hD : a.canDownload = true)
    (hk1 : k ≠ "BOB_LOCAL_ARTIFACT") (hk2 : k ≠ "BOB_REMOTE_ARTIFACT") :
    (a.uploadPackageRun environ tmpName b ret).1
        = some (subprocEnv a.whiteList environ tmpName b) ∧
    (a.downloadPackageRun environ tmpName b ret extractErr).1
        = some (subprocEnv a.whiteList environ tmpName b) ∧
    subprocEnv a.whiteList environ tmpName b "BOB_LOCAL_ARTIFACT" = some tmpName ∧
    subprocEnv a.whiteList environ tmpName b "BOB_REMOTE_ARTIFACT"
        = some (CustomArchive.makeUrl b) ∧
    subprocEnv a.whiteList environ tmpName b k
        = (if a.whiteList.contains k then environ k else none) := by
  refine ⟨?_, ?_, rfl, rfl, ?_⟩
  · by_cases hr : ret = 0 <;> simp [CustomArchive.uploadPackageRun, hU, hr]
  · by_cases hr : ret = 0 <;>
      cases extractErr <;> simp [CustomArchive.downloadPackageRun, hD, hr]
  · simp [subprocEnv, hk1, hk2]

/-- Witness for C4: whitelist `["PATH"]`, ambient `SECRET=1`; the
subprocess environment maps `SECRET` to `none`. -/
theorem C4_custom_env_whitelist_witness :
    exCustom.canUpload = true ∧ exCustom.canDownload = true ∧
    "SECRET" ≠ "BOB_LOCAL_ARTIFACT" ∧ "SECRET" ≠ "BOB_REMOTE_ARTIFACT" ∧
    ((exCustom.uploadPackageRun exEnviron "/tmp/bob-a12" bEx 0).1
        = some (subprocEnv exCustom.whiteList exEnviron "/tmp/bob-a12" bEx) ∧
     (exCustom.downloadPackageRun exEnviron "/tmp/bob-a12" bEx 0 none).1
        = some (subprocEnv exCustom.whiteList exEnviron "/tmp/bob-a12" bEx) ∧
     subprocEnv exCustom.whiteList exEnviron "/tmp/bob-a12" bEx "BOB_LOCAL_ARTIFACT"
        = some "/tmp/bob-a12" ∧
     subprocEnv exCustom.whiteList exEnviron "/tmp/bob-a12" bEx "BOB_REMOTE_ARTIFACT"
        = some (CustomArchive.makeUrl bEx) ∧
     subprocEnv exCustom.whiteList exEnviron "/tmp/bob-a12" bEx "SECRET"
        = (if exCustom.whiteList.contains "SECRET" then exEnviron "SECRET" else none)) :=
  ⟨rfl, rfl, by decide, by decide,
    C4_custom_env_whitelist exCustom exEnviron "/tmp/bob-a12" bEx 0 none "SECRET"
      rfl rfl (by decide) (by decide)⟩

/-- C5 (counterexample): an external-command backend configured with the
present-but-empty upload command string has `canUpload() = True`, because
the code checks only `self.__uploadCmd is not None`, not non-emptiness. -/
theorem C5_empty_command_counterexample :
    (((CustomArchive.init
        ⟨some "shell", none, none, none, some "", some ""⟩ ["PATH"]).wantUpload
          true).wantDownload true).uploadCmd = some "" ∧
    (((CustomArchive.init
        ⟨some "shell", none, none, none, some "", some ""⟩ ["PATH"]).wantUpload
          true).wantDownload true).canUpload = true :=
  ⟨rfl, rfl⟩

/-- C5 (amended): `canUpload()` (resp. `canDownload()`) of the
external-command backend is the base wanted-and-allowed capability ANDed
with mere presence of the configured command string (`is not None`; an
empty string counts as present); an absent command disables that direction
regardless of the wanted flags, and construction is total (never fails). -/
theorem C5_custom_capability (spec : ArchiveSpec) (wl : List String) (e e2 : Bool) :
    (CustomArchive.init spec wl).canUpload
        = ((CustomArchive.init spec wl).base.canUpload && spec.uploadCmd.isSome) ∧
    (CustomArchive.init spec wl).canDownload
        = ((CustomArchive.init spec wl).base.canDownload && spec.downloadCmd.isSome) ∧
    (((CustomArchive.init { spec with uploadCmd := none } wl).wantUpload e).wantDownload
        e2).canUpload = false ∧
    (((CustomArchive.init { spec with downloadCmd := none } wl).wantUpload e).wantDownload
        e2).canDownload = false := by
  refine ⟨rfl, rfl, ?_, ?_⟩ <;>
    simp [CustomArchive.init, CustomArchive.canUpload, CustomArchive.canDownload,
      CustomArchive.wantUpload, CustomArchive.wantDownload]

/-- C6: with the relevant capability enabled, a non-zero exit of the
spawned command makes `uploadPackage` raise a fatal `BuildError` reporting
the exit status, while `downloadPackage` treats the same non-zero exit as a
normal not-found outcome and returns `False` without raising. -/
theorem C6_custom_exit_handling (a : CustomArchive) (environ : String → Option String)
    (tmpName : String) (b : List Nat) (ret : Int) (extractErr : Option String)
    (hU : a.canUpload = true) (hD : a.canDownload = true) (hret : ret ≠ 0) :
    (a.uploadPackageRun environ tmpName b ret).2
        = .error ⟨"Upload failed: command return with status " ++ toString ret⟩ ∧
    (a.downloadPackageRun environ tmpName b ret extractErr).2 = .ok false := by
  constructor
  · simp [CustomArchive.uploadPackageRun, hU, hret]
  · cases extractErr <;> simp [CustomArchive.downloadPackageRun, hD, hret]

/-- Witness for C6 at exit status 3. -/
theorem C6_custom_exit_handling_witness :
    exCustom.canUpload = true ∧ exCustom.canDownload = true ∧ (3 : Int) ≠ 0 ∧
    ((exCustom.uploadPackageRun exEnviron "/tmp/bob-x" bEx 3).2
        = .error ⟨"Upload failed: command return with status " ++ toString (3 : Int)⟩ ∧
     (exCustom.downloadPackageRun exEnviron "/tmp/bob-x" bEx 3 none).2 = .ok false) :=
  ⟨rfl, rfl, by decide,
    C6_custom_exit_handling exCustom exEnviron "/tmp/bob-x" bEx 3 none rfl rfl (by decide)⟩

theorem multiDownload_result_eq_any (ms : List ArchiveView) :
    (MultiArchive.downloadPackageRun ms).1
      = ms.any fun i => i.canDownload && i.downloadResult := by
  induction ms with
  | nil => rfl
  | cons i rest ih =>
    by_cases hc : i.canDownload
    · by_cases hr : i.downloadResult
      · simp [MultiArchive.downloadPackageRun, hc, hr]
      · simp only [Bool.not_eq_true] at hr
        simp [MultiArchive.downloadPackageRun, hc, hr, ih]
    · simp only [Bool.not_eq_true] at hc
      simp [MultiArchive.downloadPackageRun, hc, ih]

theorem multiDownload_trace_eq (ms : List ArchiveView) :
    (MultiArchive.downloadPackageRun ms).2
      = takeThroughSuccess (ms.filter fun i => i.canDownload) := by
  induction ms with
  | nil => rfl
  | cons i rest ih =>
    by_cases hc : i.canDownload
    · by_cases hr : i.downloadResult
      · simp [MultiArchive.downloadPackageRun, takeThroughSuccess, hc, hr]
      · simp only [Bool.not_eq_true] at hr
        simp [MultiArchive.downloadPackageRun, takeThroughSuccess, hc, hr, ih]
    · simp only [Bool.not_eq_true] at hc
      simp [MultiArchive.downloadPackageRun, hc, ih]

/-- C7: the composite download visits members in configured order, invokes
`downloadPackage` only on members whose `canDownload()` is true, stops at —
and returns — the first success without invoking any later member (the
invocation trace is the capable-member subsequence cut at its first
success), returns `False` when no member succeeds (the overall result is
the disjunction of capability AND success over the members), and when
member 1 lacks the capability the run on `[m1, m2]` coincides with the run
on `[m2]` alone. -/
theorem C7_multi_download_order (ms : List ArchiveView) (m1 m2 : ArchiveView)
    (h1 : m1.canDownload = false) :
    (MultiArchive.downloadPackageRun ms).1
        = ms.any (fun i => i.canDownload && i.downloadResult) ∧
    (MultiArchive.downloadPackageRun ms).2
        = takeThroughSuccess (ms.filter fun i => i.canDownload) ∧
    MultiArchive.downloadPackageRun [m1, m2] = MultiArchive.downloadPackageRun [m2] := by
  refine ⟨multiDownload_result_eq_any ms, multiDownload_trace_eq ms, ?_⟩
  simp [MultiArchive.downloadPackageRun, h1]

/-- Witness for C7: member 1 incapable, member 2 capable and successful;
the composite run returns member 2's success. -/
theorem C7_multi_download_order_witness :
    (ArchiveView.mk false true).canDownload = false ∧
    ((MultiArchive.downloadPackageRun [⟨false, true⟩, ⟨true, true⟩]).1
        = [(⟨false, true⟩ : ArchiveView), ⟨true, true⟩].any
            (fun i => i.canDownload && i.downloadResult) ∧
     (MultiArchive.downloadPackageRun [⟨false, true⟩, ⟨true, true⟩]).2
        = takeThroughSuccess
            ([(⟨false, true⟩ : ArchiveView), ⟨true, true⟩].filter fun i => i.canDownload) ∧
     MultiArchive.downloadPackageRun [⟨false, true⟩, ⟨true, true⟩]
        = MultiArchive.downloadPackageRun [⟨true, true⟩]) :=
  ⟨rfl, C7_multi_download_order [⟨false, true⟩, ⟨true, true⟩] ⟨false, true⟩ ⟨true, true⟩ rfl⟩

/-- C9: the local-filesystem upload is idempotent — after any upload of a
build identifier, a second upload of the same identifier (with the upload
capability enabled) reports the "skipped" outcome and leaves the stored
filesystem exactly as it was after the first upload, whatever the second
call would have serialized. -/
theorem C9_local_upload_idempotent (a : LocalArchive) (fs : String → Option Tgz)
    (dirs dirs2 : String → String) (b : List Nat) (path path2 : String)
    (h : a.canUpload = true) :
    a.uploadPackage (a.uploadPackage fs dirs b path).1 dirs2 b path2
      = ((a.uploadPackage fs dirs b path).1, UploadOutcome.skipped) := by
  by_cases hf : (fs (a.packageResultFile b)).isSome
  · simp [LocalArchive.uploadPackage, h, hf]
  · simp [LocalArchive.uploadPackage, h, hf]

/-- Witness for C9: two uploads of the identifier 0xAABBCCDD into an empty
archive; the second is skipped and changes nothing. -/
theorem C9_local_upload_idempotent_witness :
    exLocal.canUpload = true ∧
    exLocal.uploadPackage
        (exLocal.uploadPackage (fun _ => none) (fun _ => "tree1") bEx "work/dir").1
        (fun _ => "tree2") bEx "work/dir2"
      = ((exLocal.uploadPackage (fun _ => none) (fun _ => "tree1") bEx "work/dir").1,
          UploadOutcome.skipped) :=
  ⟨rfl, C9_local_upload_idempotent exLocal (fun _ => none) (fun _ => "tree1")
    (fun _ => "tree2") bEx "work/dir" "work/dir2" rfl⟩

theorem archive_canDownload_after_want (e : Bool) (m : Archive) :
    (Archive.wantDownload e m).canDownload = (e && m.downloadConfigCond) := by
  cases m <;>
    simp [Archive.wantDownload, Archive.canDownload, Archive.downloadConfigCond,
      BaseArchiveState.canDownload, BaseArchiveState.wantDownload, Bool.and_assoc]

theorem archive_canUpload_after_want (e : Bool) (m : Archive) :
    (Archive.wantUpload e m).canUpload = (e && m.uploadConfigCond) := by
  cases m <;>
    simp [Archive.wantUpload, Archive.canUpload, Archive.uploadConfigCond,
      BaseArchiveState.canUpload, BaseArchiveState.wantUpload, Bool.and_assoc]

/-- C10: `MultiArchive.wantDownload(e)` (resp. `wantUpload(e)`) forwards
the flag to every member in the list; afterwards every member that carries
a wanted flag (all but the no-op backend) has it equal to `e`, and the
composite capability is the OR over the members of `e` ANDed with that
member's static allowed-and-extra-configuration condition. -/
theorem C10_multi_want_forwarding (e : Bool) (ms : List Archive) :
    MultiArchive.wantDownload e ms = ms.map (Archive.wantDownload e) ∧
    (∀ m : Archive, (Archive.wantDownload e m).wantedDownloadFlag
        = m.wantedDownloadFlag.map fun _ => e) ∧
    MultiArchive.canDownload (MultiArchive.wantDownload e ms)
        = ms.any (fun m => e && m.downloadConfigCond) ∧
    MultiArchive.wantUpload e ms = ms.map (Archive.wantUpload e) ∧
    (∀ m : Archive, (Archive.wantUpload e m).wantedUploadFlag
        = m.wantedUploadFlag.map fun _ => e) ∧
    MultiArchive.canUpload (MultiArchive.wantUpload e ms)
        = ms.any (fun m => e && m.uploadConfigCond) := by
  refine ⟨rfl, ?_, ?_, rfl, ?_, ?_⟩
  · intro m; cases m <;> rfl
  · have hfun : (Archive.canDownload ∘ Archive.wantDownload e)
        = fun m => e && m.downloadConfigCond :=
      funext fun m => archive_canDownload_after_want e m
    simp [MultiArchive.canDownload, MultiArchive.wantDownload, List.any_map, hfun]
  · intro m; cases m <;> rfl
  · have hfun : (Archive.canUpload ∘ Archive.wantUpload e)
        = fun m => e && m.uploadConfigCond :=
      funext fun m => archive_canUpload_after_want e m
    simp [MultiArchive.canUpload, MultiArchive.wantUpload, List.any_map, hfun]
